import Mathlib

/-!
Verification development for the brain-ai indexing substrate
(src/brain-ai/src/indexing/index_manager.cpp and its header).

Modelling conventions:
* C++ `float` values (embeddings, similarities, thresholds) are modelled as `Rat`;
  the claims under study only depend on the order structure of scores.
* Wall-clock and steady-clock instants are modelled as a single `Nat` parameter
  `now` threaded explicitly through every operation that reads a clock.
* `nlohmann::json` is modelled by the inductive `Json`.  `operator[]` with a
  string key requires the value to be an object (a `null` default argument is
  promoted to an empty object), so user metadata is passed as an explicit field
  list `JObj`; any other value would make the C++ call throw, which no claim
  exercises.
* `std::mutex mutex_` is modelled explicitly: every public mutating operation
  acquires it once.  `IndexManager::save()` itself acquires the mutex, so the
  auto-save branch inside `add_document` / `add_batch` / `delete_document`
  re-locks a non-recursive mutex that the caller already holds.  That call never
  returns; operations therefore return `Option` results, `none` meaning the
  operation does not return (self-deadlock).
-/

namespace BrainAI

/-- Model of an `nlohmann::json` value (the fragments the manager manipulates). -/
inductive Json where
  | null : Json
  | str : String → Json
  | num : Int → Json
  | obj : List (String × Json) → Json

/-- Field list of a JSON object; also used for the `doc_id → metadata` map
(`std::unordered_map<std::string, nlohmann::json>`).  Key order is not
observable through the operations the claims mention. -/
abbrev JObj := List (String × Json)

/-- Lookup of a key in an object / map (`find` on the C++ side). -/
def mapFind (m : JObj) (k : String) : Option Json :=
  match m with
  | [] => none
  | (k', v) :: rest => if k' = k then some v else mapFind rest k

/-- Insert-or-assign of a key (`operator[]` assignment on map and json object). -/
def mapInsert (m : JObj) (k : String) (v : Json) : JObj :=
  match m with
  | [] => [(k, v)]
  | (k', v') :: rest => if k' = k then (k, v) :: rest else (k', v') :: mapInsert rest k v

/-- Erase of a present key (`documents_.erase(it)`). -/
def mapErase (m : JObj) (k : String) : JObj :=
  match m with
  | [] => []
  | (k', v') :: rest => if k' = k then rest else (k', v') :: mapErase rest k

/-- Modelled from the spec: one stored vector of `vector_search::HNSWIndex`
(the HNSW sources are not under src/; §3 of the spec gives the document record
`{doc_id, embedding, content, metadata, internal_id}`). -/
structure HNSWEntry where
  internal_id : Nat
  doc_id : String
  embedding : List Rat
  content : String
  metadata : Json

/-- Modelled from the spec: the ANN index state.  `M` and `ef_construction`
only shape the navigation graph, which does not affect the exact result set the
spec promises, so they are not carried here. -/
structure HNSWIndex where
  dim : Nat
  max_elements : Nat
  entries : List HNSWEntry
  next_id : Nat

/-- Modelled from the spec: `vector_search::SearchResult` as consumed by the
manager and the Python bindings (`res.doc_id`, `res.similarity`). -/
structure SearchResult where
  internal_id : Nat
  doc_id : String
  content : String
  similarity : Rat
  deriving DecidableEq

/-- Inner product of two embeddings. -/
def dot : List Rat → List Rat → Rat
  | a :: as, b :: bs => a * b + dot as bs
  | _, _ => 0

/-- Modelled from the spec: inner-product similarity on unit vectors, reported
as `(1 + dot)/2` (§4.A; the manager never forwards `space_type`, the index uses
its default inner-product space). -/
def ipSim (a b : List Rat) : Rat := (1 + dot a b) / 2

/-- Modelled from the spec: `HNSWIndex::add_document`.  Fails before any
mutation on dimension mismatch, duplicate `doc_id` (conflict-on-insert, §3) and
capacity exhaustion (§4.A); otherwise appends the entry under the next
monotonically increasing `internal_id`. -/
def HNSWIndex.add_document (idx : HNSWIndex) (doc_id : String) (embedding : List Rat)
    (content : String) (metadata : Json) : Bool × HNSWIndex :=
  if embedding.length ≠ idx.dim then (false, idx)
  else if idx.entries.any (fun e => e.doc_id = doc_id) then (false, idx)
  else if idx.max_elements ≤ idx.entries.length then (false, idx)
  else (true, { idx with
                entries := idx.entries ++
                  [⟨idx.next_id, doc_id, embedding, content, metadata⟩]
                next_id := idx.next_id + 1 })

/-- Comparator for search results: higher similarity first, ties broken by
lower `internal_id` (spec §4.A tie-breaking). -/
def resBefore (a b : SearchResult) : Bool :=
  if b.similarity < a.similarity then true
  else if a.similarity = b.similarity then decide (a.internal_id < b.internal_id)
  else false

def insertRes (r : SearchResult) : List SearchResult → List SearchResult
  | [] => [r]
  | x :: xs => if resBefore r x then r :: x :: xs else x :: insertRes r xs

def sortRes : List SearchResult → List SearchResult
  | [] => []
  | x :: xs => insertRes x (sortRes xs)

/-- Modelled from the spec: `HNSWIndex::search` returns at most `k` results
ordered by decreasing similarity (ties by lower id); a query of mismatched
dimension fails without touching state, modelled as the empty result list. -/
def HNSWIndex.search (idx : HNSWIndex) (query : List Rat) (k : Nat) : List SearchResult :=
  if query.length ≠ idx.dim then []
  else
    (sortRes (idx.entries.map
      (fun e => ⟨e.internal_id, e.doc_id, e.content, ipSim query e.embedding⟩))).take k

/-- Content of one file of the on-disk snapshot pair (§4.F): the binary graph
snapshot at `index_path` and the JSON metadata sidecar. -/
inductive FileData where
  | indexFile : HNSWIndex → FileData
  | metaFile : JObj → FileData

/-- File system model: path → file content. -/
abbrev FS := List (String × FileData)

def fsRead (fs : FS) (p : String) : Option FileData :=
  match fs with
  | [] => none
  | (p', d) :: rest => if p' = p then some d else fsRead rest p

def fsWrite (fs : FS) (p : String) (d : FileData) : FS :=
  match fs with
  | [] => [(p, d)]
  | (p', d') :: rest => if p' = p then (p, d) :: rest else (p', d') :: fsWrite rest p d

def fsExists (fs : FS) (p : String) : Bool := (fsRead fs p).isSome

/-- `brain_ai::indexing::IndexConfig` (index_manager.hpp). -/
structure IndexConfig where
  embedding_dim : Nat := 1536
  max_elements : Nat := 100000
  M : Nat := 16
  ef_construction : Nat := 200
  ef_search : Nat := 50
  space_type : String := "ip"
  index_path : String := ""
  auto_save : Bool := true
  save_interval : Nat := 300
  batch_size : Nat := 100
  num_threads : Int := 4

/-- `brain_ai::indexing::IndexStats`.  The default constructor zeroes the
counters and stamps `created_at` with the current wall clock. -/
structure IndexStats where
  total_documents : Nat
  total_vectors : Nat
  index_size_bytes : Nat
  last_update : Nat
  created_at : Nat

/-- `IndexStats{}` built at instant `now`. -/
def IndexStats.init (now : Nat) : IndexStats :=
  { total_documents := 0
    total_vectors := 0
    index_size_bytes := 0
    last_update := 0
    created_at := now }

/-- `brain_ai::indexing::BatchResult`.  `total_time` is a wall-clock duration
the model does not measure; it stays 0 exactly as in the early-return paths. -/
structure BatchResult where
  total : Nat := 0
  successful : Nat := 0
  failed : Nat := 0
  error_messages : List String := []
  total_time : Nat := 0

/-- `BatchResult::success_rate()`. -/
def BatchResult.success_rate (r : BatchResult) : Rat :=
  if 0 < r.total then (r.successful : Rat) / (r.total : Rat) else 0

/-- State of one `IndexManager` (config, HNSW index, `documents_` metadata map,
stats, auto-save timestamp `last_save_`). -/
structure IMState where
  config : IndexConfig
  index : HNSWIndex
  documents : JObj
  stats : IndexStats
  last_save : Nat

/-- Fresh `HNSWIndex` as built by the manager from its configuration
(constructor, `clear`, `load_from`). -/
def freshIndex (cfg : IndexConfig) : HNSWIndex :=
  { dim := cfg.embedding_dim
    max_elements := cfg.max_elements
    entries := []
    next_id := 0 }

/-- `IndexManager::create_metadata`: copy the user metadata and assign the four
system keys.  `content.length()` counts bytes, hence `String.utf8ByteSize`. -/
def create_metadata (doc_id : String) (content : String) (user_metadata : JObj)
    (now : Nat) : JObj :=
  mapInsert (mapInsert (mapInsert (mapInsert user_metadata
    "doc_id" (Json.str doc_id))
    "content" (Json.str content))
    "content_length" (Json.num content.utf8ByteSize))
    "indexed_at" (Json.num now)

/-- `IndexManager::should_auto_save`: auto-save enabled, a default path set,
and at least `save_interval` elapsed since `last_save_`. -/
def should_auto_save (st : IMState) (now : Nat) : Bool :=
  if !st.config.auto_save || st.config.index_path = "" then false
  else decide (st.config.save_interval ≤ now - st.last_save)

/-- `IndexManager::update_stats`. -/
def update_stats (st : IMState) (now : Nat) : IndexStats :=
  { st.stats with
    total_documents := st.documents.length
    total_vectors := st.index.entries.length
    last_update := now
    index_size_bytes := st.index.entries.length * st.config.embedding_dim * 4 }

/-- `IndexManager::add_document`.  Holds `mutex_` throughout; when the
auto-save branch is reached it calls `save()`, which re-locks the held
non-recursive mutex: the call never returns, modelled as `none`. -/
def add_document (st : IMState) (now : Nat) (doc_id : String) (embedding : List Rat)
    (content : String) (metadata : JObj) : Option (Bool × IMState) :=
  let full_metadata := create_metadata doc_id content metadata now
  match st.index.add_document doc_id embedding content (Json.obj full_metadata) with
  | (false, _) => some (false, st)
  | (true, idx') =>
    let st' := { st with
                 index := idx'
                 documents := mapInsert st.documents doc_id (Json.obj full_metadata) }
    let st'' := { st' with stats := update_stats st' now }
    if should_auto_save st'' now then none else some (true, st'')

/-- `IndexManager::delete_document`: erase the metadata entry only; the HNSW
graph is untouched (the source notes HNSWlib does not support deletion).  The
auto-save branch deadlocks as in `add_document`. -/
def delete_document (st : IMState) (now : Nat) (doc_id : String) :
    Option (Bool × IMState) :=
  match mapFind st.documents doc_id with
  | none => some (false, st)
  | some _ =>
    let st' := { st with documents := mapErase st.documents doc_id }
    let st'' := { st' with stats := update_stats st' now }
    if should_auto_save st'' now then none else some (true, st'')

/-- `IndexManager::update_document`: delete (result ignored) then add. -/
def update_document (st : IMState) (now : Nat) (doc_id : String)
    (embedding : List Rat) (content : String) (metadata : JObj) :
    Option (Bool × IMState) :=
  match delete_document st now doc_id with
  | none => none
  | some (_, st') => add_document st' now doc_id embedding content metadata

/-- `IndexManager::get_document`: the stored metadata, or `json{}` (null). -/
def get_document (st : IMState) (doc_id : String) : Json :=
  (mapFind st.documents doc_id).getD Json.null

/-- `IndexManager::has_document`. -/
def has_document (st : IMState) (doc_id : String) : Bool :=
  (mapFind st.documents doc_id).isSome

/-- `IndexManager::document_count`. -/
def document_count (st : IMState) : Nat := st.documents.length

/-- `IndexManager::search`: query the index, then when `threshold > 0` drop
results with `similarity < threshold` (`remove_if`). -/
def search (st : IMState) (query_embedding : List Rat) (top_k : Nat)
    (similarity_threshold : Rat) : List SearchResult :=
  let results := st.index.search query_embedding top_k
  if 0 < similarity_threshold then
    results.filter (fun r => !decide (r.similarity < similarity_threshold))
  else results

/-- One item of an `add_batch` request after the parallel arrays passed the
length validation (loop body indices `doc_ids[i]`, `embeddings[i]`,
`contents[i]`, and `metadatas[i]` when metadata was provided). -/
structure BatchItem where
  doc_id : String
  embedding : List Rat
  content : String
  metadata : JObj

/-- Zip of the parallel arrays without metadata (`has_metadata = false`: every
item gets the empty `json{}` metadata). -/
def zipBatch : List String → List (List Rat) → List String → List BatchItem
  | id :: ids, e :: es, c :: cs => ⟨id, e, c, []⟩ :: zipBatch ids es cs
  | _, _, _ => []

/-- Zip of the parallel arrays with per-item metadata (`has_metadata = true`). -/
def zipBatchMd : List String → List (List Rat) → List String → List JObj →
    List BatchItem
  | id :: ids, e :: es, c :: cs, m :: ms => ⟨id, e, c, m⟩ :: zipBatchMd ids es cs ms
  | _, _, _, _ => []

/-- Loop body of `IndexManager::add_batch`: per item, build the full metadata,
try the index insertion, record the document and a success, or a failure plus
one error message. -/
def batchLoop (now : Nat) : List BatchItem → IMState → BatchResult →
    BatchResult × IMState
  | [], st, acc => (acc, st)
  | it :: its, st, acc =>
    let full_metadata := create_metadata it.doc_id it.content it.metadata now
    match st.index.add_document it.doc_id it.embedding it.content
        (Json.obj full_metadata) with
    | (true, idx') =>
      batchLoop now its
        { st with
          index := idx'
          documents := mapInsert st.documents it.doc_id (Json.obj full_metadata) }
        { acc with successful := acc.successful + 1 }
    | (false, _) =>
      batchLoop now its st
        { acc with
          failed := acc.failed + 1
          error_messages := acc.error_messages ++
            ["Failed to add document: " ++ it.doc_id] }

/-- `IndexManager::add_batch`.  Size validation happens before the lock and
before any mutation; the loop then runs under the lock, and the trailing
auto-save branch calls `save()` on the held mutex (deadlock, `none`), exactly
as in `add_document`. -/
def add_batch (st : IMState) (now : Nat) (doc_ids : List String)
    (embeddings : List (List Rat)) (contents : List String)
    (metadatas : List JObj) : Option (BatchResult × IMState) :=
  let base : BatchResult := { total := doc_ids.length }
  if doc_ids.length ≠ embeddings.length ∨ doc_ids.length ≠ contents.length then
    some ({ base with error_messages := ["Input size mismatch"] }, st)
  else if !metadatas.isEmpty ∧ metadatas.length ≠ doc_ids.length then
    some ({ base with error_messages := ["Metadata size mismatch"] }, st)
  else
    let items := if !metadatas.isEmpty then
                   zipBatchMd doc_ids embeddings contents metadatas
                 else zipBatch doc_ids embeddings contents
    let (res, st') := batchLoop now items st base
    let st'' := { st' with stats := update_stats st' now }
    if should_auto_save st'' now then none else some (res, st'')

/-- `IndexManager::save_unlocked`: nothing on an empty path; otherwise write
the graph snapshot at `index_path` and the metadata JSON sidecar at
`index_path + ".metadata.json"`, then stamp `last_save_`. -/
def save_unlocked (st : IMState) (fs : FS) (now : Nat) : Bool × IMState × FS :=
  if st.config.index_path = "" then (false, st, fs)
  else
    let fs' := fsWrite fs st.config.index_path (FileData.indexFile st.index)
    let fs'' := fsWrite fs' (st.config.index_path ++ ".metadata.json")
      (FileData.metaFile st.documents)
    (true, { st with last_save := now }, fs'')

/-- `IndexManager::save`: takes the lock (free here) and saves. -/
def save (st : IMState) (fs : FS) (now : Nat) : Bool × IMState × FS :=
  save_unlocked st fs now

/-- Restoration of the metadata map from the sidecar JSON
(`documents_.clear()` followed by insertion of every item). -/
def rebuildDocs (items : JObj) : JObj :=
  items.foldl (fun m kv => mapInsert m kv.1 kv.2) []

/-- `IndexManager::load_unlocked`: load the graph from `index_path` (rejecting
a dimension mismatch against the current configuration, spec §4.F), then the
metadata sidecar.  When the graph loads but the sidecar is missing the function
fails with the index already replaced — exactly the partial mutation the
`load_from` swap discipline exists to undo. -/
def load_unlocked (st : IMState) (fs : FS) (now : Nat) : Bool × IMState :=
  if st.config.index_path = "" then (false, st)
  else
    match fsRead fs st.config.index_path with
    | some (FileData.indexFile idx') =>
      if idx'.dim = st.config.embedding_dim then
        let st' := { st with index := idx' }
        match fsRead fs (st.config.index_path ++ ".metadata.json") with
        | some (FileData.metaFile items) =>
          let st'' := { st' with documents := rebuildDocs items }
          (true, { st'' with stats := update_stats st'' now })
        | _ => (false, st')
      else (false, st)
    | _ => (false, st)

/-- `IndexManager::load`: takes the lock (free here) and loads. -/
def load (st : IMState) (fs : FS) (now : Nat) : Bool × IMState :=
  load_unlocked st fs now

/-- `IndexManager::load_from`.  Empty path: fail untouched.  Non-existent
path: fail untouched when `update_default` is false, otherwise reset to an
empty index at the new default path.  Existing path: swap in a fresh candidate
state, attempt the load, swap the old state back on failure. -/
def load_from (st : IMState) (fs : FS) (path : String) (update_default : Bool)
    (now : Nat) : Bool × IMState :=
  if path = "" then (false, st)
  else if !fsExists fs path then
    if !update_default then (false, st)
    else
      (true, { st with
               config := { st.config with index_path := path }
               documents := []
               index := freshIndex st.config
               stats := IndexStats.init now })
  else
    let old_path := st.config.index_path
    let old_documents := st.documents
    let old_index := st.index
    let old_stats := st.stats
    let swapped : IMState :=
      { st with
        config := { st.config with index_path := path }
        documents := []
        index := freshIndex st.config
        stats := IndexStats.init now }
    let (ok, st2) := load_unlocked swapped fs now
    if !ok then
      (false, { st2 with
                documents := old_documents
                index := old_index
                stats := old_stats
                config := { st2.config with index_path := old_path } })
    else if !update_default then
      (true, { st2 with config := { st2.config with index_path := old_path } })
    else (true, st2)

/-- `IndexManager::clear`: drop the metadata map, re-create the index from the
current configuration, refresh the stats. -/
def clear (st : IMState) (now : Nat) : IMState :=
  let st' := { st with documents := [], index := freshIndex st.config }
  { st' with stats := update_stats st' now }

/-- One insertion request of a sequence (document plus the instant at which
`add_document` is called). -/
structure InsertReq where
  doc_id : String
  embedding : List Rat
  content : String
  metadata : JObj
  tstamp : Nat

/-- Sequential execution of a list of `add_document` calls, defined only when
every single insertion returns successfully (`some` with result `true`). -/
def insertAll (st : IMState) : List InsertReq → Option IMState
  | [] => some st
  | r :: rs =>
    match add_document st r.tstamp r.doc_id r.embedding r.content r.metadata with
    | some (true, st') => insertAll st' rs
    | _ => none

/-! Concrete managers used to instantiate the theorems below. -/

/-- Example configuration: dimension 2, persistence and auto-save disabled. -/
def exConfig : IndexConfig :=
  { embedding_dim := 2, max_elements := 10, index_path := "", auto_save := false }

/-- Freshly constructed manager for `exConfig`. -/
def exState : IMState :=
  { config := exConfig, index := freshIndex exConfig, documents := []
    stats := IndexStats.init 0, last_save := 0 }

/-- `exState` after a successful `add_document("a", [1,0], "alpha")`. -/
def exStateA : IMState :=
  ((add_document exState 0 "a" [1, 0] "alpha" []).getD (false, exState)).2

/-- `exStateA` after a successful `delete_document("a")`. -/
def exStateDel : IMState :=
  ((delete_document exStateA 1 "a").getD (false, exStateA)).2

/-- Configuration with auto-save armed: path set, `auto_save = true`,
zero save interval, so `should_auto_save` holds immediately. -/
def exAutoConfig : IndexConfig :=
  { embedding_dim := 2, max_elements := 10, index_path := "idx"
    auto_save := true, save_interval := 0 }

/-- Freshly constructed manager for `exAutoConfig`. -/
def exAutoState : IMState :=
  { config := exAutoConfig, index := freshIndex exAutoConfig, documents := []
    stats := IndexStats.init 0, last_save := 0 }

/-- Configuration with a snapshot path but auto-save disabled. -/
def exSaveConfig : IndexConfig :=
  { embedding_dim := 2, max_elements := 10, index_path := "idx", auto_save := false }

/-- Freshly constructed manager for `exSaveConfig`. -/
def exSaveState : IMState :=
  { config := exSaveConfig, index := freshIndex exSaveConfig, documents := []
    stats := IndexStats.init 0, last_save := 0 }

/-- Result of a two-item batch whose second embedding has the wrong dimension:
item "a" succeeds, item "b" fails. -/
def exBatchOut : BatchResult × IMState :=
  (add_batch exState 0 ["a", "b"] [[1, 0], [1]] ["ca", "cb"] []).getD
    ({ total := 0 }, exState)

/-- Result of a batch whose parallel arrays have differing lengths
(0 ids, 1 embedding). -/
def exMismatchOut : BatchResult × IMState :=
  (add_batch exState 0 [] [[1]] [] []).getD ({ total := 0 }, exState)

/-- Example user metadata carrying one custom key. -/
def exUser : JObj := [("tag", Json.str "x")]

/-- `exState` after a successful `add_document("u", [1,0], "hello", exUser)`
at instant 7. -/
def exStateU : IMState :=
  ((add_document exState 7 "u" [1, 0] "hello" exUser).getD (false, exState)).2

/-- Two insertion requests against the persistence-enabled manager. -/
def exReqs : List InsertReq :=
  [⟨"a", [1, 0], "alpha", [], 0⟩, ⟨"b", [0, 1], "beta", [], 1⟩]

/-- `exSaveState` after the two insertions of `exReqs`. -/
def exStateS : IMState := (insertAll exSaveState exReqs).getD exSaveState

/-! Helper lemmas about the map, file-system and index primitives. -/

theorem mapFind_mapInsert_self (m : JObj) (k : String) (v : Json) :
    mapFind (mapInsert m k v) k = some v := by
  induction m with
  | nil => simp [mapInsert, mapFind]
  | cons kv rest ih =>
    obtain ⟨k', v'⟩ := kv
    by_cases h : k' = k
    · simp [mapInsert, mapFind, h]
    · simp [mapInsert, mapFind, h, ih]

theorem mapFind_mapInsert_ne (m : JObj) (k k2 : String) (v : Json) (h : k2 ≠ k) :
    mapFind (mapInsert m k v) k2 = mapFind m k2 := by
  induction m with
  | nil => simp [mapInsert, mapFind, Ne.symm h]
  | cons kv rest ih =>
    obtain ⟨k', v'⟩ := kv
    by_cases hk : k' = k
    · subst hk
      simp [mapInsert, mapFind, Ne.symm h]
    · by_cases h2 : k' = k2
      · subst h2
        simp [mapInsert, mapFind, hk, h]
      · simp [mapInsert, mapFind, hk, h2, ih]

theorem mapFind_eq_none_of_not_mem (m : JObj) (k : String)
    (h : k ∉ m.map Prod.fst) : mapFind m k = none := by
  induction m with
  | nil => rfl
  | cons kv rest ih =>
    obtain ⟨k', v'⟩ := kv
    simp only [List.map_cons, List.mem_cons] at h
    push_neg at h
    simp [mapFind, Ne.symm h.1, ih h.2]

theorem mapFind_mapErase_self (m : JObj) (k : String)
    (h : (m.map Prod.fst).Nodup) : mapFind (mapErase m k) k = none := by
  induction m with
  | nil => rfl
  | cons kv rest ih =>
    obtain ⟨k', v'⟩ := kv
    simp only [List.map_cons, List.nodup_cons] at h
    by_cases hk : k' = k
    · subst hk
      simpa [mapErase] using mapFind_eq_none_of_not_mem rest k' h.1
    · simp [mapErase, mapFind, hk, ih h.2]

theorem fsRead_fsWrite_self (fs : FS) (p : String) (d : FileData) :
    fsRead (fsWrite fs p d) p = some d := by
  induction fs with
  | nil => simp [fsWrite, fsRead]
  | cons pd rest ih =>
    obtain ⟨p', d'⟩ := pd
    by_cases h : p' = p
    · simp [fsWrite, fsRead, h]
    · simp [fsWrite, fsRead, h, ih]

theorem fsRead_fsWrite_ne (fs : FS) (p p2 : String) (d : FileData) (h : p2 ≠ p) :
    fsRead (fsWrite fs p d) p2 = fsRead fs p2 := by
  induction fs with
  | nil => simp [fsWrite, fsRead, Ne.symm h]
  | cons pd rest ih =>
    obtain ⟨p', d'⟩ := pd
    by_cases hk : p' = p
    · subst hk
      simp [fsWrite, fsRead, Ne.symm h]
    · by_cases h2 : p' = p2
      · subst h2
        simp [fsWrite, fsRead, hk, h]
      · simp [fsWrite, fsRead, hk, h2, ih]

theorem metadata_path_ne (p : String) : p ++ ".metadata.json" ≠ p := by
  intro h
  have hl := congrArg String.length h
  rw [String.length_append] at hl
  have h14 : ".metadata.json".length = 14 := rfl
  rw [h14] at hl
  omega

theorem search_index_congr {s1 s2 : IMState} (h : s1.index = s2.index)
    (q : List Rat) (k : Nat) (t : Rat) : search s1 q k t = search s2 q k t := by
  unfold search
  rw [h]

theorem should_auto_save_congr {s1 s2 : IMState} (now : Nat)
    (hc : s1.config = s2.config) (hl : s1.last_save = s2.last_save) :
    should_auto_save s1 now = should_auto_save s2 now := by
  unfold should_auto_save
  rw [hc, hl]

theorem HNSWIndex.add_document_dim (idx : HNSWIndex) (d : String) (e : List Rat)
    (c : String) (m : Json) : ((idx.add_document d e c m).2).dim = idx.dim := by
  unfold HNSWIndex.add_document
  split
  · rfl
  · split
    · rfl
    · split
      · rfl
      · rfl

theorem add_document_some_true {st st' : IMState} {now : Nat} {d : String}
    {e : List Rat} {c : String} {md : JObj}
    (h : add_document st now d e c md = some (true, st')) :
    st'.config = st.config ∧ st'.index.dim = st.index.dim ∧
    st'.last_save = st.last_save := by
  unfold add_document at h
  dsimp only at h
  rcases hadd : st.index.add_document d e c (Json.obj (create_metadata d c md now))
    with ⟨b, idx'⟩
  rw [hadd] at h
  cases b
  · simp at h
  · dsimp only at h
    split at h
    · exact absurd h (by simp)
    · simp only [Option.some.injEq, Prod.mk.injEq, true_and] at h
      subst h
      refine ⟨rfl, ?_, rfl⟩
      have hdim := HNSWIndex.add_document_dim st.index d e c
        (Json.obj (create_metadata d c md now))
      rw [hadd] at hdim
      exact hdim

theorem load_unlocked_preserves (st : IMState) (fs : FS) (now : Nat) :
    (load_unlocked st fs now).2.config = st.config ∧
    (load_unlocked st fs now).2.last_save = st.last_save := by
  unfold load_unlocked
  split
  · exact ⟨rfl, rfl⟩
  · split
    · split
      · split
        · exact ⟨rfl, rfl⟩
        · exact ⟨rfl, rfl⟩
      · exact ⟨rfl, rfl⟩
    · exact ⟨rfl, rfl⟩

theorem insertAll_preserves {st st' : IMState} {S : List InsertReq}
    (h : insertAll st S = some st') :
    st'.config = st.config ∧ st'.index.dim = st.index.dim := by
  induction S generalizing st with
  | nil =>
    simp [insertAll] at h
    subst h
    exact ⟨rfl, rfl⟩
  | cons r rs ih =>
    unfold insertAll at h
    rcases hstep : add_document st r.tstamp r.doc_id r.embedding r.content r.metadata
      with _ | ⟨b, st1⟩
    · rw [hstep] at h
      simp at h
    · rw [hstep] at h
      cases b
      · simp at h
      · simp only at h
        obtain ⟨h1, h2, _⟩ := add_document_some_true hstep
        obtain ⟨h3, h4⟩ := ih h
        exact ⟨h3.trans h1, h4.trans h2⟩

/-! Claim theorems. -/

/-- C7: for every manager state, query embedding, `top_k` and threshold > 0,
every result returned by `search` has similarity ≥ threshold, and the returned
list may contain fewer than `top_k` entries (an instance with fewer exists). -/
theorem C7_threshold_filter (st : IMState) (q : List Rat) (k : Nat) (t : Rat)
    (ht : 0 < t) :
    (∀ r ∈ search st q k t, t ≤ r.similarity) ∧
    ∃ st' q', (search st' q' 1 t).length < 1 := by
  constructor
  · intro r hr
    unfold search at hr
    rw [if_pos ht] at hr
    rw [List.mem_filter] at hr
    have := hr.2
    simp only [Bool.not_eq_true', decide_eq_false_iff_not, not_lt] at this
    exact this
  · refine ⟨exState, [], ?_⟩
    have hempty : search exState [] 1 t = [] := by
      unfold search HNSWIndex.search
      simp [exState, exConfig, freshIndex]
    rw [hempty]
    simp

/-- C7 witness at a concrete state, query and threshold. -/
theorem C7_threshold_filter_witness :
    (0 : Rat) < 1/2 ∧
    ((∀ r ∈ search exStateA [1, 0] 3 (1/2), (1/2 : Rat) ≤ r.similarity) ∧
     ∃ st' q', (search st' q' 1 (1/2 : Rat)).length < 1) :=
  ⟨by norm_num, C7_threshold_filter exStateA [1, 0] 3 (1/2) (by norm_num)⟩

/-- C9: `load_from(path, update_default := true)` on a non-existent path
discards the documents and the graph, re-creates an empty index from the
current configuration, resets the stats, updates the default path, and
succeeds with `document_count` 0. -/
theorem C9_loadfrom_reset (st : IMState) (fs : FS) (path : String) (now : Nat)
    (hp : path ≠ "") (hne : fsExists fs path = false) :
    load_from st fs path true now =
      (true, { st with
               config := { st.config with index_path := path }
               documents := []
               index := freshIndex st.config
               stats := IndexStats.init now }) ∧
    document_count (load_from st fs path true now).2 = 0 := by
  have hmain : load_from st fs path true now =
      (true, { st with
               config := { st.config with index_path := path }
               documents := []
               index := freshIndex st.config
               stats := IndexStats.init now }) := by
    unfold load_from
    rw [if_neg hp, hne]
    rfl
  refine ⟨hmain, ?_⟩
  rw [hmain]
  rfl

/-- C9 witness: concrete manager with one document, load_from a fresh path. -/
theorem C9_loadfrom_reset_witness :
    load_from exStateA [] "newpath" true 5 =
      (true, { exStateA with
               config := { exStateA.config with index_path := "newpath" }
               documents := []
               index := freshIndex exStateA.config
               stats := IndexStats.init 5 }) ∧
    document_count (load_from exStateA [] "newpath" true 5).2 = 0 :=
  C9_loadfrom_reset exStateA [] "newpath" 5 (by decide) (by rfl)

/-- C5 counterexample: on a `doc_id` absent from the manager,
`delete_document` does return a not-found failure and `get_document` returns
empty, but `update_document` does NOT surface a not-found failure: it ignores
the failed delete and performs a plain insert, returning success. -/
theorem C5_counterexample :
    has_document exState "ghost" = false ∧
    delete_document exState 0 "ghost" = some (false, exState) ∧
    get_document exState "ghost" = Json.null ∧
    (update_document exState 0 "ghost" [1, 0] "g" []).map Prod.fst = some true :=
  ⟨rfl, rfl, rfl, rfl⟩

/-- C5 amended: for a `doc_id` absent from the manager, `delete_document`
surfaces a not-found failure (returns false, state untouched) and
`get_document` returns an empty result, but `update_document` ignores the
missing document and behaves exactly as `add_document` (an insert, which
normally succeeds). -/
theorem C5_amended (st : IMState) (now : Nat) (doc_id : String)
    (embedding : List Rat) (content : String) (metadata : JObj)
    (habs : mapFind st.documents doc_id = none) :
    delete_document st now doc_id = some (false, st) ∧
    get_document st doc_id = Json.null ∧
    update_document st now doc_id embedding content metadata =
      add_document st now doc_id embedding content metadata := by
  have hdel : delete_document st now doc_id = some (false, st) := by
    unfold delete_document
    rw [habs]
  refine ⟨hdel, ?_, ?_⟩
  · unfold get_document
    rw [habs]
    rfl
  · unfold update_document
    rw [hdel]

/-- C5 amended, witness at the empty manager and doc_id "ghost". -/
theorem C5_amended_witness :
    delete_document exState 0 "ghost" = some (false, exState) ∧
    get_document exState "ghost" = Json.null ∧
    update_document exState 0 "ghost" [1, 0] "g" [] =
      add_document exState 0 "ghost" [1, 0] "g" [] :=
  C5_amended exState 0 "ghost" [1, 0] "g" [] rfl

/-- C1 counterexample: a successful `delete_document` after which a subsequent
`search` still returns the deleted document — no tombstone exists and search
does not filter it out (the source removes only the metadata entry; the HNSW
vector remains and is returned). -/
theorem C1_counterexample :
    delete_document exStateA 1 "a" = some (true, exStateDel) ∧
    (search exStateDel [1, 0] 1 0).map SearchResult.doc_id = ["a"] :=
  ⟨rfl, by decide⟩

/-- C1 amended: a successful `delete_document` removes the document's metadata
(`get_document` becomes empty, the key disappears from the metadata map), but
no tombstone is recorded: the HNSW index is left untouched and every
subsequent `search` returns exactly what it returned before the deletion —
the deleted document is not filtered out. -/
theorem C1_amended (st st' : IMState) (now : Nat) (doc_id : String)
    (hkeys : (st.documents.map Prod.fst).Nodup)
    (h : delete_document st now doc_id = some (true, st')) :
    mapFind st'.documents doc_id = none ∧
    get_document st' doc_id = Json.null ∧
    st'.index = st.index ∧
    ∀ q k t, search st' q k t = search st q k t := by
  unfold delete_document at h
  rcases hfind : mapFind st.documents doc_id with _ | v
  · rw [hfind] at h
    simp at h
  · rw [hfind] at h
    dsimp only at h
    split at h
    · exact absurd h (by simp)
    · simp only [Option.some.injEq, Prod.mk.injEq, true_and] at h
      subst h
      have hnone : mapFind (mapErase st.documents doc_id) doc_id = none :=
        mapFind_mapErase_self st.documents doc_id hkeys
      refine ⟨hnone, ?_, rfl, ?_⟩
      · unfold get_document
        dsimp only
        rw [hnone]
        rfl
      · intro q k t
        exact search_index_congr rfl q k t

/-- C1 amended, witness at the one-document manager. -/
theorem C1_amended_witness :
    mapFind exStateDel.documents "a" = none ∧
    get_document exStateDel "a" = Json.null ∧
    exStateDel.index = exStateA.index ∧
    ∀ q k t, search exStateDel q k t = search exStateA q k t :=
  C1_amended exStateA exStateDel 1 "a" (by decide) rfl

/-- C4: the auto-save branch of `add_document` never writes a snapshot.  When
`should_auto_save` holds (auto_save on, a path set, and at least
`save_interval` elapsed) and the insertion itself succeeds, the operation
calls `save()`, which re-locks the non-recursive `mutex_` already held by
`add_document`: the call self-deadlocks and never returns (`none`), instead of
writing the snapshot and updating the timestamp as the claim states.
`save_unlocked()` exists for exactly this caller but is not used here; the
same pattern occurs in `add_batch` and `delete_document`. -/
theorem C4_autosave_deadlock (st : IMState) (now : Nat) (doc_id : String)
    (embedding : List Rat) (content : String) (metadata : JObj)
    (hsa : should_auto_save st now = true)
    (hadd : (st.index.add_document doc_id embedding content
      (Json.obj (create_metadata doc_id content metadata now))).1 = true) :
    add_document st now doc_id embedding content metadata = none := by
  unfold add_document
  dsimp only
  rcases hres : st.index.add_document doc_id embedding content
      (Json.obj (create_metadata doc_id content metadata now)) with ⟨b, idx'⟩
  rw [hres] at hadd
  cases b
  · exact absurd hadd (by simp)
  · dsimp only
    rw [if_pos ?_]
    rw [should_auto_save_congr now rfl rfl]
    exact hsa

/-- C4 witness: a manager with auto-save armed (path set, zero interval)
deadlocks on the very first `add_document`. -/
theorem C4_autosave_deadlock_witness :
    should_auto_save exAutoState 0 = true ∧
    add_document exAutoState 0 "a" [1, 0] "alpha" [] = none :=
  ⟨by decide, C4_autosave_deadlock exAutoState 0 "a" [1, 0] "alpha" []
    (by decide) (by decide)⟩

/-- C2: `load_from` on a non-existent path with `update_default = false`
fails and returns the state unchanged; more generally every failing
`load_from` hands back exactly the prior state (documents, index, stats and
default `index_path` restored by the swap-back), so `document_count` and all
subsequent `search` results are unchanged. -/
theorem C2_load_rollback (st : IMState) (fs : FS) (now : Nat) :
    (∀ path, fsExists fs path = false → load_from st fs path false now = (false, st)) ∧
    (∀ path ud, (load_from st fs path ud now).1 = false →
      (load_from st fs path ud now).2 = st) ∧
    (∀ path ud, (load_from st fs path ud now).1 = false →
      document_count (load_from st fs path ud now).2 = document_count st ∧
      ∀ q k t, search (load_from st fs path ud now).2 q k t = search st q k t) := by
  have hgen : ∀ path ud, (load_from st fs path ud now).1 = false →
      (load_from st fs path ud now).2 = st := by
    intro path ud hfail
    unfold load_from at hfail ⊢
    by_cases hp : path = ""
    · rw [if_pos hp]
    · rw [if_neg hp] at hfail ⊢
      by_cases hex : fsExists fs path
      · rw [hex] at hfail ⊢
        dsimp only at hfail ⊢
        rcases hlu : load_unlocked { st with
            config := { st.config with index_path := path }
            documents := []
            index := freshIndex st.config
            stats := IndexStats.init now } fs now with ⟨ok, st2⟩
        have hpres := load_unlocked_preserves { st with
            config := { st.config with index_path := path }
            documents := []
            index := freshIndex st.config
            stats := IndexStats.init now } fs now
        rw [hlu] at hpres
        obtain ⟨hcfg, hls⟩ := hpres
        cases ok
        · show ({ st2 with
            documents := st.documents
            index := st.index
            stats := st.stats
            config := { st2.config with index_path := st.config.index_path } } : IMState) = st
          rw [show st2.config = { st.config with index_path := path } from hcfg,
            show st2.last_save = st.last_save from hls]
        · rw [hlu] at hfail
          cases ud
          · exact Bool.noConfusion (hfail : (true : Bool) = false)
          · exact Bool.noConfusion (hfail : (true : Bool) = false)
      · simp only [Bool.not_eq_true] at hex
        rw [hex] at hfail ⊢
        cases ud
        · rfl
        · exact Bool.noConfusion (hfail : (true : Bool) = false)
  refine ⟨?_, hgen, ?_⟩
  · intro path hne
    unfold load_from
    by_cases hp : path = ""
    · rw [if_pos hp]
    · rw [if_neg hp, hne]
      rfl
  · intro path ud hfail
    rw [hgen path ud hfail]
    exact ⟨rfl, fun _ _ _ => rfl⟩

/-- C2 witness: failing load at a missing path on a one-document manager. -/
theorem C2_load_rollback_witness :
    load_from exStateA [] "nope" false 5 = (false, exStateA) :=
  (C2_load_rollback exStateA [] 5).1 "nope" rfl

/-- Length of the metadata-free zip equals the id count when the parallel
arrays agree in length. -/
theorem zipBatch_length : ∀ (ids : List String) (embs : List (List Rat))
    (cs : List String), ids.length = embs.length → ids.length = cs.length →
    (zipBatch ids embs cs).length = ids.length := by
  intro ids
  induction ids with
  | nil => intro embs cs _ _; rfl
  | cons id ids ih =>
    intro embs cs h1 h2
    cases embs with
    | nil => simp at h1
    | cons e es =>
      cases cs with
      | nil => simp at h2
      | cons c cs' =>
        simp only [zipBatch, List.length_cons]
        rw [ih es cs' (by simpa using h1) (by simpa using h2)]

/-- Length of the metadata-carrying zip equals the id count when all four
parallel arrays agree in length. -/
theorem zipBatchMd_length : ∀ (ids : List String) (embs : List (List Rat))
    (cs : List String) (mds : List JObj), ids.length = embs.length →
    ids.length = cs.length → mds.length = ids.length →
    (zipBatchMd ids embs cs mds).length = ids.length := by
  intro ids
  induction ids with
  | nil => intro embs cs mds _ _ _; rfl
  | cons id ids ih =>
    intro embs cs mds h1 h2 h3
    cases embs with
    | nil => simp at h1
    | cons e es =>
      cases cs with
      | nil => simp at h2
      | cons c cs' =>
        cases mds with
        | nil => simp at h3
        | cons m ms =>
          simp only [zipBatchMd, List.length_cons]
          rw [ih es cs' ms (by simpa using h1) (by simpa using h2) (by simpa using h3)]

/-- Accounting of the `add_batch` loop: `total` is untouched, each item
contributes exactly one success or one failure, and each failure appends
exactly one error message. -/
theorem batchLoop_counts (now : Nat) : ∀ (items : List BatchItem) (st : IMState)
    (acc : BatchResult),
    (batchLoop now items st acc).1.total = acc.total ∧
    (batchLoop now items st acc).1.successful + (batchLoop now items st acc).1.failed
      = acc.successful + acc.failed + items.length ∧
    (batchLoop now items st acc).1.error_messages.length + acc.failed
      = acc.error_messages.length + (batchLoop now items st acc).1.failed := by
  intro items
  induction items with
  | nil => intro st acc; exact ⟨rfl, by simp [batchLoop], by simp [batchLoop]⟩
  | cons it its ih =>
    intro st acc
    unfold batchLoop
    dsimp only
    rcases hadd : st.index.add_document it.doc_id it.embedding it.content
      (Json.obj (create_metadata it.doc_id it.content it.metadata now)) with ⟨b, idx'⟩
    cases b
    · dsimp only
      obtain ⟨t1, t2, t3⟩ := ih st
        { acc with
          failed := acc.failed + 1
          error_messages := acc.error_messages ++
            ["Failed to add document: " ++ it.doc_id] }
      refine ⟨t1, ?_, ?_⟩
      · rw [t2]
        dsimp only
        simp only [List.length_cons]
        omega
      · rw [List.length_append] at t3
        dsimp only at t3
        simp only [List.length_cons, List.length_nil] at t3
        omega
    · dsimp only
      obtain ⟨t1, t2, t3⟩ := ih
        { st with
          index := idx'
          documents := mapInsert st.documents it.doc_id
            (Json.obj (create_metadata it.doc_id it.content it.metadata now)) }
        { acc with successful := acc.successful + 1 }
      refine ⟨t1, ?_, ?_⟩
      · rw [t2]
        dsimp only
        simp only [List.length_cons]
        omega
      · dsimp only at t3
        omega

/-- A `BatchResult` without successes has a zero success rate. -/
theorem success_rate_zero (r : BatchResult) (h : r.successful = 0) :
    r.success_rate = 0 := by
  unfold BatchResult.success_rate
  rw [h]
  split <;> simp

/-- C10 counterexample: with `doc_ids` empty and one embedding the parallel
arrays differ in length, yet `total = 0 = successful + failed`, refuting the
claim's "(so total ≠ successful + failed)". The remaining conjuncts of the
claim (zero counts, one error message, zero success rate) do hold here. -/
theorem C10_counterexample :
    ([] : List String).length ≠ [[(1 : Rat)]].length ∧
    add_batch exState 0 [] [[(1 : Rat)]] [] [] = some (exMismatchOut.1, exState) ∧
    exMismatchOut.1.total = exMismatchOut.1.successful + exMismatchOut.1.failed ∧
    exMismatchOut.1.total = 0 ∧
    exMismatchOut.1.error_messages.length = 1 ∧
    exMismatchOut.1.success_rate = 0 :=
  ⟨by decide, rfl, rfl, rfl, rfl, rfl⟩

/-- C10 amended: on any length mismatch (ids/embeddings/contents differing, or
non-empty metadatas of different length) `add_batch` returns, with the state
unchanged, a result with `total = |doc_ids|`, `successful = 0`, `failed = 0`,
exactly one error message and `success_rate() = 0`; consequently
`total ≠ successful + failed` whenever `doc_ids` is non-empty. -/
theorem C10_amended (st : IMState) (now : Nat) (ids : List String)
    (embs : List (List Rat)) (cs : List String) (mds : List JObj)
    (h : ids.length ≠ embs.length ∨ ids.length ≠ cs.length ∨
      ((!mds.isEmpty) = true ∧ mds.length ≠ ids.length)) :
    (add_batch st now ids embs cs mds).map
      (fun p => (p.2, p.1.total, p.1.successful, p.1.failed,
                 p.1.error_messages.length, p.1.success_rate)) =
      some (st, ids.length, 0, 0, 1, 0) ∧
    (ids ≠ [] → ids.length ≠ 0 + 0) := by
  constructor
  · unfold add_batch
    by_cases h1 : ids.length ≠ embs.length ∨ ids.length ≠ cs.length
    · rw [if_pos h1]
      dsimp only [Option.map]
      rw [success_rate_zero _ rfl]
      rfl
    · rw [if_neg h1]
      have h2 : (!mds.isEmpty) = true ∧ mds.length ≠ ids.length := by
        rcases h with ha | hb | hc
        · exact absurd (Or.inl ha) h1
        · exact absurd (Or.inr hb) h1
        · exact hc
      rw [if_pos h2]
      dsimp only [Option.map]
      rw [success_rate_zero _ rfl]
      rfl
  · intro hne
    have : ids.length ≠ 0 := by
      intro hz
      exact hne (List.length_eq_zero.mp hz)
    omega

/-- C10 amended, witness: one id against zero embeddings. -/
theorem C10_amended_witness :
    (add_batch exState 0 ["a"] [] [] []).map
      (fun p => (p.2, p.1.total, p.1.successful, p.1.failed,
                 p.1.error_messages.length, p.1.success_rate)) =
      some (exState, ["a"].length, 0, 0, 1, 0) ∧
    (["a"] ≠ ([] : List String) → ["a"].length ≠ 0 + 0) :=
  C10_amended exState 0 ["a"] [] [] [] (Or.inl (by decide))

/-- C6: `add_batch` is not atomic.  A length mismatch between the parallel
arrays (or a non-empty metadatas array of the wrong length) fails the whole
batch before any mutation, leaving the state unchanged with zero successes and
failures; with valid sizes every item is accounted as exactly one success or
failure with one error message per failure; and in a concrete two-item batch
whose second item fails (wrong dimension), the first item's success is kept in
the final state while the failure is reported in the `BatchResult`. -/
theorem C6_batch_nonatomic (st : IMState) (now : Nat) (ids : List String)
    (embs : List (List Rat)) (cs : List String) (mds : List JObj) :
    ((ids.length ≠ embs.length ∨ ids.length ≠ cs.length ∨
      ((!mds.isEmpty) = true ∧ mds.length ≠ ids.length)) →
      (add_batch st now ids embs cs mds).map
        (fun p => (p.2, p.1.successful, p.1.failed, p.1.error_messages.length)) =
        some (st, 0, 0, 1)) ∧
    (ids.length = embs.length → ids.length = cs.length →
      ((!mds.isEmpty) = true → mds.length = ids.length) →
      ∀ r st', add_batch st now ids embs cs mds = some (r, st') →
        r.total = ids.length ∧ r.successful + r.failed = r.total ∧
        r.error_messages.length = r.failed) ∧
    (add_batch exState 0 ["a", "b"] [[1, 0], [1]] ["ca", "cb"] [] =
       some (exBatchOut.1, exBatchOut.2) ∧
     exBatchOut.1.total = 2 ∧ exBatchOut.1.successful = 1 ∧
     exBatchOut.1.failed = 1 ∧ exBatchOut.1.error_messages.length = 1 ∧
     has_document exBatchOut.2 "a" = true ∧
     has_document exBatchOut.2 "b" = false) := by
  refine ⟨?_, ?_, rfl, rfl, rfl, rfl, rfl, rfl, rfl⟩
  · intro h
    unfold add_batch
    by_cases h1 : ids.length ≠ embs.length ∨ ids.length ≠ cs.length
    · rw [if_pos h1]
      rfl
    · rw [if_neg h1]
      have h2 : (!mds.isEmpty) = true ∧ mds.length ≠ ids.length := by
        rcases h with ha | hb | hc
        · exact absurd (Or.inl ha) h1
        · exact absurd (Or.inr hb) h1
        · exact hc
      rw [if_pos h2]
      rfl
  · intro hlen1 hlen2 hmd r st' hout
    unfold add_batch at hout
    rw [if_neg (fun hc => hc.elim (fun hx => hx hlen1) (fun hx => hx hlen2))] at hout
    rw [if_neg (fun hc => hc.2 (hmd hc.1))] at hout
    dsimp only at hout
    rcases hbl : batchLoop now
        (if (!mds.isEmpty) = true then zipBatchMd ids embs cs mds
         else zipBatch ids embs cs) st { total := ids.length } with ⟨res, st1⟩
    rw [hbl] at hout
    dsimp only at hout
    split at hout
    · exact absurd hout (by simp)
    · simp only [Option.some.injEq, Prod.mk.injEq] at hout
      obtain ⟨hres, _⟩ := hout
      subst hres
      have hcounts := batchLoop_counts now
        (if (!mds.isEmpty) = true then zipBatchMd ids embs cs mds
         else zipBatch ids embs cs) st { total := ids.length }
      rw [hbl] at hcounts
      obtain ⟨t1, t2, t3⟩ := hcounts
      dsimp only at t1 t2 t3
      have hitems : (if (!mds.isEmpty) = true then zipBatchMd ids embs cs mds
          else zipBatch ids embs cs).length = ids.length := by
        by_cases hm : (!mds.isEmpty) = true
        · rw [if_pos hm]
          exact zipBatchMd_length ids embs cs mds hlen1 hlen2 (hmd hm)
        · rw [if_neg hm]
          exact zipBatch_length ids embs cs hlen1 hlen2
      rw [hitems] at t2
      simp only [List.length_nil] at t3
      exact ⟨t1, by omega, by omega⟩

/-- C6 witness: the whole-batch failure on mismatched arrays, and the item
accounting of the mixed success/failure batch. -/
theorem C6_batch_nonatomic_witness :
    ((add_batch exState 0 [] [[(1 : Rat)]] [] []).map
      (fun p => (p.2, p.1.successful, p.1.failed, p.1.error_messages.length)) =
      some (exState, 0, 0, 1)) ∧
    (exBatchOut.1.total = ["a", "b"].length ∧
     exBatchOut.1.successful + exBatchOut.1.failed = exBatchOut.1.total ∧
     exBatchOut.1.error_messages.length = exBatchOut.1.failed) :=
  ⟨(C6_batch_nonatomic exState 0 [] [[(1 : Rat)]] [] []).1 (Or.inl (by decide)),
   (C6_batch_nonatomic exState 0 ["a", "b"] [[1, 0], [1]] ["ca", "cb"] []).2.1
     rfl rfl (fun hm => absurd hm (by decide)) exBatchOut.1 exBatchOut.2 rfl⟩

/-- C8: after a successful `add_document`, the record returned by
`get_document` is exactly the user metadata augmented by `create_metadata`
with `doc_id`, `content`, `content_length` (byte length of the content) and
`indexed_at` (the insertion instant); every other key keeps its user value. -/
theorem C8_metadata_augmentation (st st' : IMState) (now : Nat) (doc_id : String)
    (embedding : List Rat) (content : String) (user_metadata : JObj)
    (h : add_document st now doc_id embedding content user_metadata = some (true, st')) :
    get_document st' doc_id =
      Json.obj (create_metadata doc_id content user_metadata now) ∧
    mapFind (create_metadata doc_id content user_metadata now) "doc_id" =
      some (Json.str doc_id) ∧
    mapFind (create_metadata doc_id content user_metadata now) "content" =
      some (Json.str content) ∧
    mapFind (create_metadata doc_id content user_metadata now) "content_length" =
      some (Json.num content.utf8ByteSize) ∧
    mapFind (create_metadata doc_id content user_metadata now) "indexed_at" =
      some (Json.num now) ∧
    ∀ k, k ≠ "doc_id" → k ≠ "content" → k ≠ "content_length" → k ≠ "indexed_at" →
      mapFind (create_metadata doc_id content user_metadata now) k =
        mapFind user_metadata k := by
  refine ⟨?_, ?_, ?_, ?_, ?_, ?_⟩
  · unfold add_document at h
    dsimp only at h
    rcases hadd : st.index.add_document doc_id embedding content
      (Json.obj (create_metadata doc_id content user_metadata now)) with ⟨b, idx'⟩
    rw [hadd] at h
    cases b
    · simp at h
    · dsimp only at h
      split at h
      · exact absurd h (by simp)
      · simp only [Option.some.injEq, Prod.mk.injEq, true_and] at h
        subst h
        unfold get_document
        dsimp only
        rw [mapFind_mapInsert_self]
        rfl
  · unfold create_metadata
    rw [mapFind_mapInsert_ne _ _ _ _ (by decide),
      mapFind_mapInsert_ne _ _ _ _ (by decide),
      mapFind_mapInsert_ne _ _ _ _ (by decide), mapFind_mapInsert_self]
  · unfold create_metadata
    rw [mapFind_mapInsert_ne _ _ _ _ (by decide),
      mapFind_mapInsert_ne _ _ _ _ (by decide), mapFind_mapInsert_self]
  · unfold create_metadata
    rw [mapFind_mapInsert_ne _ _ _ _ (by decide), mapFind_mapInsert_self]
  · unfold create_metadata
    rw [mapFind_mapInsert_self]
  · intro k h1 h2 h3 h4
    unfold create_metadata
    rw [mapFind_mapInsert_ne _ _ _ _ h4, mapFind_mapInsert_ne _ _ _ _ h3,
      mapFind_mapInsert_ne _ _ _ _ h2, mapFind_mapInsert_ne _ _ _ _ h1]

/-- C8 witness at a concrete insertion with one user key. -/
theorem C8_metadata_augmentation_witness :
    get_document exStateU "u" = Json.obj (create_metadata "u" "hello" exUser 7) ∧
    mapFind (create_metadata "u" "hello" exUser 7) "doc_id" = some (Json.str "u") ∧
    mapFind (create_metadata "u" "hello" exUser 7) "tag" = mapFind exUser "tag" :=
  ⟨(C8_metadata_augmentation exState exStateU 7 "u" [1, 0] "hello" exUser rfl).1,
   (C8_metadata_augmentation exState exStateU 7 "u" [1, 0] "hello" exUser rfl).2.1,
   (C8_metadata_augmentation exState exStateU 7 "u" [1, 0] "hello" exUser rfl).2.2.2.2.2
     "tag" (by decide) (by decide) (by decide) (by decide)⟩

/-- Snapshot roundtrip at the manager level: with a configured path and a
dimension-consistent index, `save` succeeds, and after `clear` the subsequent
`load` succeeds and restores an index giving identical search results. -/
theorem save_clear_load_search_eq (st1 : IMState) (fs : FS) (n1 n2 n3 : Nat)
    (q : List Rat) (k : Nat) (t : Rat)
    (hpath1 : st1.config.index_path ≠ "")
    (hdim1 : st1.index.dim = st1.config.embedding_dim) :
    (save st1 fs n1).1 = true ∧
    (load (clear (save st1 fs n1).2.1 n2) (save st1 fs n1).2.2 n3).1 = true ∧
    search (load (clear (save st1 fs n1).2.1 n2) (save st1 fs n1).2.2 n3).2 q k t
      = search st1 q k t := by
  unfold save save_unlocked
  rw [if_neg hpath1]
  dsimp only
  refine ⟨rfl, ?_⟩
  unfold clear load load_unlocked
  dsimp only
  rw [if_neg hpath1]
  rw [fsRead_fsWrite_ne _ _ _ _ (Ne.symm (metadata_path_ne _)), fsRead_fsWrite_self]
  dsimp only
  rw [if_pos hdim1]
  rw [fsRead_fsWrite_self]
  dsimp only
  exact ⟨rfl, search_index_congr rfl q k t⟩

/-- C3: for every sequence of successful insertions from a manager whose index
dimension matches its configuration and whose snapshot path is set, the
sequence insert, save, clear, load, search yields exactly the same results
(contents, scores and order) as insert then search. -/
theorem C3_snapshot_roundtrip (st0 st1 : IMState) (fs : FS) (S : List InsertReq)
    (n1 n2 n3 : Nat) (q : List Rat) (k : Nat) (t : Rat)
    (hdim : st0.index.dim = st0.config.embedding_dim)
    (hpath : st0.config.index_path ≠ "")
    (hins : insertAll st0 S = some st1) :
    (save st1 fs n1).1 = true ∧
    (load (clear (save st1 fs n1).2.1 n2) (save st1 fs n1).2.2 n3).1 = true ∧
    search (load (clear (save st1 fs n1).2.1 n2) (save st1 fs n1).2.2 n3).2 q k t
      = search st1 q k t := by
  obtain ⟨hcfg, hdim1⟩ := insertAll_preserves hins
  have hpath1 : st1.config.index_path ≠ "" := by
    rw [hcfg]
    exact hpath
  have hdim1' : st1.index.dim = st1.config.embedding_dim := by
    rw [hdim1, hcfg, hdim]
  exact save_clear_load_search_eq st1 fs n1 n2 n3 q k t hpath1 hdim1'

/-- C3 witness: two documents, snapshot to the model file system, clear,
reload, and compare a concrete search. -/
theorem C3_snapshot_roundtrip_witness :
    (save exStateS [] 2).1 = true ∧
    (load (clear (save exStateS [] 2).2.1 3) (save exStateS [] 2).2.2 4).1 = true ∧
    search (load (clear (save exStateS [] 2).2.1 3) (save exStateS [] 2).2.2 4).2
      [1, 0] 2 0 = search exStateS [1, 0] 2 0 :=
  C3_snapshot_roundtrip exSaveState exStateS [] exReqs 2 3 4 [1, 0] 2 0
    rfl (by decide) rfl

end BrainAI
